import Mathlib

set_option maxHeartbeats 1000000
set_option maxRecDepth 100000

/-!
Verification of the sql2struct generator (src/main.go) against its
specification. The Go code is shallowly embedded: strings are Lean
strings (lists of characters), the two regular expressions of Parse are
embedded as explicit leftmost-first matchers, Go map lookups become
association-list lookups returning the empty string on a missing key,
and the file write of GenerateStruct is replaced by returning the
rendered text. Character classification and case mapping model the Go
standard library on the ASCII range, which is the range every identifier
handled by this program lies in (column names and type keywords are
matched by ASCII-only regular-expression classes).
-/

namespace Sql2Struct

/-- The backquote character (0x60). -/
def backquote : Char := Char.ofNat 96

/-- The single-quote character (0x27). -/
def squote : Char := Char.ofNat 39

/-- A one-character string holding the single quote. -/
def sq : String := String.mk [squote]

/-- ASCII digit test, the RE2 class \d. -/
def isDigitChar (c : Char) : Bool := decide (48 ≤ c.toNat ∧ c.toNat ≤ 57)

/-- ASCII uppercase-letter test, modelling unicode.IsUpper on ASCII input. -/
def isUpperAscii (c : Char) : Bool := decide (65 ≤ c.toNat ∧ c.toNat ≤ 90)

/-- ASCII lowercase-letter test. -/
def isLowerAscii (c : Char) : Bool := decide (97 ≤ c.toNat ∧ c.toNat ≤ 122)

/-- ASCII letter test, the RE2 class [A-Za-z]. -/
def isAlphaAscii (c : Char) : Bool := isUpperAscii c || isLowerAscii c

/-- RE2 word character, the class \w = [0-9A-Za-z_]. -/
def isWordChar (c : Char) : Bool := isAlphaAscii c || isDigitChar c || decide (c.toNat = 95)

/-- RE2 whitespace, the class \s = [\t\n\f\r and space]. -/
def isSpaceRE (c : Char) : Bool :=
  decide (c.toNat = 9 ∨ c.toNat = 10 ∨ c.toNat = 12 ∨ c.toNat = 13 ∨ c.toNat = 32)

/-- ASCII upper-casing of one character, modelling unicode.ToUpper and
strings.ToUpper on the ASCII characters this program feeds them. -/
def toUpperChar (c : Char) : Char := if isLowerAscii c then Char.ofNat (c.toNat - 32) else c

/-- ASCII lower-casing of one character, modelling unicode.ToLower and
strings.ToLower on the ASCII characters this program feeds them. -/
def toLowerChar (c : Char) : Char := if isUpperAscii c then Char.ofNat (c.toNat + 32) else c

/-- Boolean prefix test on character lists, modelling strings.HasPrefix. -/
def isPrefixB : List Char → List Char → Bool
  | [], _ => true
  | _ :: _, [] => false
  | a :: as, b :: bs => a == b && isPrefixB as bs

/-- Boolean substring test, modelling strings.Contains. -/
def listContains (pat : List Char) : List Char → Bool
  | [] => pat.isEmpty
  | c :: rest => isPrefixB pat (c :: rest) || listContains pat rest

/-- Splitting on a single separator character, modelling strings.Split with
the one-character separators used by the program (underscore and the
opening parenthesis). -/
def splitOnChar (sep : Char) : List Char → List (List Char)
  | [] => [[]]
  | c :: rest =>
    if c = sep then [] :: splitOnChar sep rest
    else
      match splitOnChar sep rest with
      | [] => [[c]]
      | g :: gs => (c :: g) :: gs

/-- Word-separator test of the Go standard library strings.Title, on the
ASCII range (every character this generator passes to Title is ASCII,
arising from the \w or [A-Za-z] regular-expression classes). ASCII
letters, digits and the underscore are not separators; every other ASCII
character is; characters beyond ASCII are modelled as non-separators. -/
def isSeparatorGo (c : Char) : Bool :=
  !(isAlphaAscii c || isDigitChar c || decide (c.toNat = 95) || decide (127 < c.toNat))

/-- The character-mapping loop of strings.Title: a character is upper-cased
exactly when the previous character is a separator; the previous character
is then updated to the original current character. -/
def titleMap : Char → List Char → List Char
  | _, [] => []
  | prev, c :: rest => (if isSeparatorGo prev then toUpperChar c else c) :: titleMap c rest

/-- strings.Title of the Go standard library: title-case the first letter of
every word, starting from a space as the previous character. -/
def goTitle (s : String) : String := String.mk (titleMap (Char.ofNat 32) s.data)

/-- Character-list core of ToPascalCase, main.go lines 355 to 369: split on
underscore, Title each part, join with the empty separator, and if the
result starts with the letter F, drop that letter and upper-case the
character that follows it (when any). -/
def pascalChars (l : List Char) : List Char :=
  let result := ((splitOnChar (Char.ofNat 95) l).map (titleMap (Char.ofNat 32))).flatten
  match result with
  | [] => []
  | c :: rest =>
    if c = Char.ofNat 70 then
      match rest with
      | [] => []
      | d :: rest2 => toUpperChar d :: rest2
    else c :: rest

/-- ToPascalCase, main.go lines 355 to 369. -/
def ToPascalCase (s : String) : String := String.mk (pascalChars s.data)

/-- Character-list core of ToSnakeCase, main.go lines 340 to 353. The Bool
flag records whether a character was already consumed (the i > 0 test of
the Go loop). -/
def snakeAux : Bool → List Char → List Char
  | _, [] => []
  | notFirst, c :: rest =>
    (if isUpperAscii c then
       (if notFirst then [Char.ofNat 95, toLowerChar c] else [toLowerChar c])
     else [c])
      ++ snakeAux true rest

/-- ToSnakeCase, main.go lines 340 to 353. -/
def ToSnakeCase (s : String) : String := String.mk (snakeAux false s.data)

/-!
Embedding of the two regular expressions of Parse (main.go lines 145 and
154 to 157) and of the two nullability regular expressions (lines 169 and
174), with the leftmost-first submatch semantics of the Go regexp
package: the engine prefers the match a backtracking engine would find
first, so a greedy sub-pattern takes its longest extent and backtracks
only when the remainder of the pattern cannot otherwise match.
-/

/-- The literal `CREATE TABLE ` that opens the table-name pattern. -/
def createLit : List Char := "CREATE TABLE ".data

/-- Backtracking loop for the tail `\S+\.(\w+)(?:_\x7b[a-zA-Z]+\x7d)?` of the
table-name pattern at a fixed starting position. The greedy `\S+` takes k
characters, tried from the longest extent downward; the dot must follow, and
the group `(\w+)` must capture at least one word character. Because `\w+` is
greedy and the underscore is a word character, the optional brace-suffix
group can only ever match the empty string, so it constrains nothing and
the capture is the maximal word run after the dot. -/
def tableKLoop (t : List Char) : Nat → Option (List Char)
  | 0 => none
  | Nat.succ k =>
    if (t.drop (Nat.succ k)).head? = some (Char.ofNat 46) then
      match (t.drop (Nat.succ k + 1)).takeWhile isWordChar with
      | [] => tableKLoop t k
      | c :: w => some (c :: w)
    else tableKLoop t k

/-- Match of the table-name pattern tail right after the literal: the
maximal run of non-space characters is computed and the split point for
`\S+\.` is searched from the right. Returns the captured group `(\w+)`. -/
def tableTailSearch (t : List Char) : Option (List Char) :=
  let n := (t.takeWhile (fun c => !isSpaceRE c)).length
  tableKLoop t (n - 1)

/-- FindStringSubmatch of the table-name pattern (main.go line 145):
leftmost occurrence of the literal whose tail matches; the captured table
name is returned. -/
def findTableMatch : List Char → Option (List Char)
  | [] => none
  | c :: rest =>
    if isPrefixB createLit (c :: rest) then
      match tableTailSearch ((c :: rest).drop createLit.length) with
      | some w => some w
      | none => findTableMatch rest
    else findTableMatch rest

/-- One field match of the column pattern: the five capture groups the code
reads (group 3, the parenthesised size, is part of group 2 and not stored
separately because the code never reads it). -/
structure FieldMatch where
  name : List Char
  rawType : List Char
  other : List Char
  comment : List Char
deriving DecidableEq, Repr

/-- The literal `COMMENT` of the column pattern. -/
def commentLit : List Char := "COMMENT".data

/-- Match of `\s+COMMENT\s+'(.*?)'` at the head of the input: a nonempty
space run, the literal, another nonempty space run, and a quoted span that
may not contain a newline (the dot of RE2 does not match newlines) and
ends at the first closing quote. Returns the comment and the number of
characters consumed. -/
def matchAfterOther (u : List Char) : Option (List Char × Nat) :=
  let sp := u.takeWhile isSpaceRE
  if sp.isEmpty then none
  else
    let u1 := u.drop sp.length
    if isPrefixB commentLit u1 then
      let u2 := u1.drop commentLit.length
      let sp2 := u2.takeWhile isSpaceRE
      if sp2.isEmpty then none
      else
        let u3 := u2.drop sp2.length
        match u3 with
        | [] => none
        | q :: u4 =>
          if q = squote then
            let cm := u4.takeWhile (fun c => !(c = squote || c.toNat = 10))
            match u4.drop cm.length with
            | q2 :: _ =>
              if q2 = squote then
                some (cm, sp.length + commentLit.length + sp2.length + 1 + cm.length + 1)
              else none
            | [] => none
          else none
    else none

/-- The lazy group `(.*?)` before `\s+COMMENT`: the shortest span, grown one
character at a time, that lets the rest of the pattern match; the span may
not contain a newline. Returns the other-clause span, the comment and the
number of characters consumed. -/
def searchOther : List Char → Option (List Char × List Char × Nat)
  | [] => none
  | c :: rest =>
    match matchAfterOther (c :: rest) with
    | some (cm, n) => some ([], cm, n)
    | none =>
      if c.toNat = 10 then none
      else
        match searchOther rest with
        | some (o, cm, n) => some (c :: o, cm, n + 1)
        | none => none

/-- Backtracking loop over the length of the greedy `\s+` that separates the
type token from the other clause: the longest space run is tried first and
shortened on failure, never below one character. -/
def fieldTailALoop (t : List Char) : Nat → Option (List Char × List Char × Nat)
  | 0 => none
  | Nat.succ a =>
    match searchOther (t.drop (Nat.succ a)) with
    | some (o, cm, n) => some (o, cm, Nat.succ a + n)
    | none => fieldTailALoop t a

/-- Match of the column-pattern tail `\s+(.*?)\s+COMMENT\s+'(.*?)'` at the
head of the input. -/
def matchFieldTail (t : List Char) : Option (List Char × List Char × Nat) :=
  fieldTailALoop t (t.takeWhile isSpaceRE).length

/-- Optional parenthesised size `(\(\d+\))?` of the type token: consumed
only when a full opening parenthesis, nonempty digit run and closing
parenthesis are present. Returns the consumed characters and the rest. -/
def matchParenDigits : List Char → List Char × List Char
  | [] => ([], [])
  | c :: rest =>
    if c.toNat = 40 then
      match rest.takeWhile isDigitChar with
      | [] => ([], c :: rest)
      | d :: ds =>
        match rest.drop (d :: ds).length with
        | c2 :: rest2 =>
          if c2.toNat = 41 then (c :: (d :: ds) ++ [c2], rest2)
          else ([], c :: rest)
        | [] => ([], c :: rest)
    else ([], c :: rest)

/-- Match of the whole column pattern at the head of the input; returns the
capture groups and the number of characters consumed. Each greedy piece of
the pattern is deterministic here because the character that follows it can
never re-enter the class it repeats over. -/
def matchFieldAt (l : List Char) : Option (FieldMatch × Nat) :=
  match l with
  | [] => none
  | c0 :: r0 =>
    if c0 = backquote then
      match r0.takeWhile isWordChar with
      | [] => none
      | nc :: nrest =>
        let name := nc :: nrest
        match r0.drop name.length with
        | c1 :: r2 =>
          if c1 = backquote then
            let sp1 := r2.takeWhile isSpaceRE
            if sp1.isEmpty then none
            else
              let r3 := r2.drop sp1.length
              match r3.takeWhile isAlphaAscii with
              | [] => none
              | ac :: arest =>
                let alpha := ac :: arest
                let r4 := r3.drop alpha.length
                let digits := r4.takeWhile isDigitChar
                let r5 := r4.drop digits.length
                let pr := matchParenDigits r5
                let rawType := alpha ++ digits ++ pr.1
                match matchFieldTail pr.2 with
                | some (other, comment, nTail) =>
                  some ({ name := name, rawType := rawType, other := other,
                          comment := comment },
                        1 + name.length + 1 + sp1.length + rawType.length + nTail)
                | none => none
          else none
        | [] => none
    else none

/-- Scan loop of FindAllStringSubmatch with explicit fuel: after a match,
continue right after its end; after a failed position, advance one
character. Every step shortens the input by at least one character while
spending one unit of fuel, so fuel equal to the input length never runs
out before the input does. -/
def findFieldAux : Nat → List Char → List FieldMatch
  | 0, _ => []
  | _, [] => []
  | Nat.succ fuel, c :: rest =>
    match matchFieldAt (c :: rest) with
    | some (m, n) => m :: findFieldAux fuel (rest.drop (n - 1))
    | none => findFieldAux fuel rest

/-- FindAllStringSubmatch of the column pattern (main.go line 158). -/
def findFieldMatches (l : List Char) : List FieldMatch := findFieldAux l.length l

/-- MatchString of the pattern `(?i)\bNOT\s+NULL\b` at one position: the
case-insensitive literal NOT, a nonempty whitespace run, the
case-insensitive literal NULL, and a word boundary after (the boundary
before is checked by the caller). -/
def tryNotNull (l : List Char) : Bool :=
  isPrefixB "not".data (l.map toLowerChar) &&
    (let r := l.drop 3
     let sp := r.takeWhile isSpaceRE
     !sp.isEmpty &&
       (let r2 := r.drop sp.length
        isPrefixB "null".data (r2.map toLowerChar) &&
          (match (r2.drop 4).head? with
           | none => true
           | some c => !isWordChar c)))

/-- Scan for `(?i)\bNOT\s+NULL\b` (main.go line 169); the flag records
whether the previous character is a word character, so that the leading
word boundary holds exactly when it is false. -/
def matchNotNullAux : Bool → List Char → Bool
  | _, [] => false
  | prevW, c :: rest => (!prevW && tryNotNull (c :: rest)) || matchNotNullAux (isWordChar c) rest

/-- notNullRegex.MatchString (main.go lines 169 to 170). -/
def matchNotNullRe (l : List Char) : Bool := matchNotNullAux false l

/-- First alternative of the nullable pattern: `DEFAULT\s+NULL`,
case-insensitive, with no word boundaries. -/
def tryDefaultNull (l : List Char) : Bool :=
  isPrefixB "default".data (l.map toLowerChar) &&
    (let r := l.drop 7
     let sp := r.takeWhile isSpaceRE
     !sp.isEmpty && isPrefixB "null".data ((r.drop sp.length).map toLowerChar))

/-- Second alternative of the nullable pattern: `NULL\b`, case-insensitive,
with a word boundary only on the right. -/
def tryNullWordEnd (l : List Char) : Bool :=
  isPrefixB "null".data (l.map toLowerChar) &&
    (match (l.drop 4).head? with
     | none => true
     | some c => !isWordChar c)

/-- nullRegex.MatchString for `(?i)(DEFAULT\s+NULL|NULL\b)` (main.go lines
174 to 175): an occurrence of either alternative anywhere. -/
def matchNullRe : List Char → Bool
  | [] => false
  | c :: rest => tryDefaultNull (c :: rest) || tryNullWordEnd (c :: rest) || matchNullRe rest

/-- FindString of the pattern `\d+` (main.go line 193): the leftmost maximal
digit run, or the empty string when there is none. -/
def findDigitsRun : List Char → List Char
  | [] => []
  | c :: rest => if isDigitChar c then (c :: rest).takeWhile isDigitChar else findDigitsRun rest

/-- One column descriptor (struct FieldMeta, main.go lines 79 to 85). -/
structure FieldMeta where
  FieldName : String
  FieldType : String
  Comment : String
  Validate : String
  OriginalField : String
deriving DecidableEq, Repr

/-- The parser state (struct SQLParser, main.go lines 87 to 94). The two Go
maps are embedded as association lists in source order; lookup returns the
zero value, the empty string, on a missing key, as a Go map read does. -/
structure SQLParser where
  TableName : String
  StructName : String
  SecondStructName : String
  Fields : List FieldMeta
  TypeMappings : List (String × String)
  NullableTypeMappings : List (String × String)
deriving DecidableEq, Repr

/-- Go map read with the zero value on a missing key. -/
def goMapGet (m : List (String × String)) (k : String) : String :=
  match m.find? (fun kv => kv.1 == k) with
  | some kv => kv.2
  | none => ""

/-- NewSQLParser (main.go lines 96 to 134): the two static type-mapping
tables, and up to two struct names taken from the variadic argument. -/
def NewSQLParser (structNames : List String) : SQLParser :=
  { TableName := ""
    StructName := structNames.getD 0 ""
    SecondStructName := structNames.getD 1 ""
    Fields := []
    TypeMappings :=
      [("INT", "int32"), ("SMALLINT", "int32"), ("TINYINT", "int32"),
       ("MEDIUMINT", "int32"), ("BIGINT", "int64"), ("VARCHAR", "string"),
       ("CHAR", "string"), ("TEXT", "string"), ("JSON", "string"),
       ("DATETIME", "datetime.DateTime"), ("DOUBLE", "float64"),
       ("FLOAT", "float32")]
    NullableTypeMappings :=
      [("INT", "sql.NullInt32"), ("SMALLINT", "sql.NullInt32"),
       ("TINYINT", "sql.NullInt32"), ("MEDIUMINT", "sql.NullInt32"),
       ("BIGINT", "sql.NullInt64"), ("VARCHAR", "sql.NullString"),
       ("CHAR", "sql.NullString"), ("TEXT", "sql.NullString"),
       ("JSON", "sql.NullString"), ("DATETIME", "datetime.NullDateTime"),
       ("DOUBLE", "sql.NullFloat64"), ("FLOAT", "sql.NullFloat32")] }

/-- The upper-cased type keyword of a match: strings.ToUpper of the part of
the raw type before the first opening parenthesis (main.go line 165). -/
def sqlTypeOfMatch (m : FieldMatch) : String :=
  String.mk ((((splitOnChar (Char.ofNat 40) m.rawType).headD []).map toUpperChar))

/-- The nullability decision of Parse (main.go lines 169 to 176): NOT NULL
wins; otherwise the nullable pattern decides. -/
def resolveNullable (other : List Char) : Bool :=
  if matchNotNullRe other then false else matchNullRe other

/-- The encryption-marker keyword looked up in the other clause
(main.go line 195). -/
def encKeyword : List Char := "加密".data

/-- The loop body of Parse for one column match (main.go lines 160 to 199):
type keyword, nullability, mapped target type, validation tag, and the
derived field name. -/
def mkField (p : SQLParser) (m : FieldMatch) : FieldMeta :=
  let sqlType := sqlTypeOfMatch m
  let isNullable := resolveNullable m.other
  let goType :=
    if isNullable then goMapGet p.NullableTypeMappings sqlType
    else goMapGet p.TypeMappings sqlType
  let validate :=
    if isPrefixB "VARCHAR".data m.rawType then
      "validate:\"max=" ++ String.mk (findDigitsRun m.rawType) ++ "\""
    else if listContains encKeyword m.other then "validate:\"omitempty\""
    else ""
  { FieldName := ToPascalCase (String.mk m.name)
    FieldType := goType
    Comment := String.mk m.comment
    Validate := validate
    OriginalField := String.mk m.name }

/-- The state after Parse (main.go lines 144 to 202): the table-name
match updates the table name and, when it is still empty, the struct
name; every column match appends one descriptor. -/
def parseResult (p : SQLParser) (sqlContent : String) : SQLParser :=
  let p1 :=
    match findTableMatch sqlContent.data with
    | some nm =>
      let p' := { p with TableName := String.mk nm }
      if p'.StructName = "" then { p' with StructName := ToPascalCase (String.mk nm) }
      else p'
    | none => p
  let fields := (findFieldMatches sqlContent.data).map (mkField p1)
  { p1 with Fields := p1.Fields ++ fields }

/-- Parse (main.go lines 144 to 202). The Go method mutates its receiver
and returns an error; the embedding passes the state explicitly and
returns it in Except, mirroring the error type. The body has no failing
path: the final statement is return nil, so the result is always ok. -/
def Parse (p : SQLParser) (sqlContent : String) : Except String SQLParser :=
  Except.ok (parseResult p sqlContent)

/-- A run of Parse from a fresh parser, projected out of Except (Parse
never returns an error, so the fallback branch is unreachable). -/
def parseOk (structNames : List String) (sqlContent : String) : SQLParser :=
  match Parse (NewSQLParser structNames) sqlContent with
  | Except.ok q => q
  | Except.error _ => NewSQLParser structNames

/-!
Embedding of GenerateStruct (main.go lines 204 to 334). The Go method
renders one text block and writes it to a file; the embedding returns the
file name and the rendered text, and threads the receiver state through
unchanged, since the body never assigns to it. Taking the one-byte slice
FieldName[:1] of an empty field name makes the Go program abort with a
slice-bounds panic; the embedding returns none for that case.
-/

/-- Right-padding of fmt.Sprintf width flags such as %-30s: pad with
spaces up to the width, never truncating. -/
def padRight (s : String) (w : Nat) : String :=
  s ++ String.mk (List.replicate (w - s.length) (Char.ofNat 32))

/-- The lower-cased-first-letter variant of a field name
(strings.ToLower(FieldName[:1]) + FieldName[1:], main.go line 231); none
models the panic on the empty name. -/
def privateFieldOf (name : String) : Option String :=
  match name.data with
  | [] => none
  | c :: rest => some (String.mk (toLowerChar c :: rest))

/-- One line of the PO struct declaration (main.go lines 213 to 221). -/
def poFieldLine (f : FieldMeta) : String :=
  let line := "\t" ++ padRight f.FieldName 30 ++ " " ++ padRight f.FieldType 20
      ++ " `db:\"" ++ f.OriginalField ++ "\""
  let line := if f.Validate ≠ "" then line ++ " " ++ f.Validate else line
  line ++ "`" ++ " // " ++ f.Comment ++ "\n"

/-- The import block literal of the generated file (main.go line 209). -/
def importBlock : String :=
  "import (\n\t\"git.woa.com/prd_base_pay_go/paycomm/datetime\"\n\t\"github.com/go-playground/validator/v10\"\n)\n\n"

/-- The unconditional head of the rendered text: package clause, imports
and the PO struct declaration (main.go lines 208 to 222). -/
def poSection (p : SQLParser) : String :=
  "package po\n\n" ++ importBlock
    ++ "// " ++ p.StructName ++ " Po结构体\n"
    ++ "type " ++ p.StructName ++ " struct \x7b\n"
    ++ String.join (p.Fields.map poFieldLine)
    ++ "\x7d\n\n\n"

/-- The nullable-to-basic table of the entity struct loop (main.go lines
233 to 240). -/
def nullableToBasic : List (String × String) :=
  [("sql.NullString", "string"), ("sql.NullInt32", "int32"),
   ("sql.NullInt64", "int64"), ("sql.NullFloat32", "float32"),
   ("sql.NullFloat64", "float64"), ("datetime.NullDateTime", "time.Time")]

/-- The entity-side type of a field (main.go lines 241 to 245): collapse a
nullable wrapper to its basic type, turn the plain date-time type into
time.Time, and keep everything else. -/
def entityFieldType (ft : String) : String :=
  match nullableToBasic.find? (fun kv => kv.1 == ft) with
  | some kv => kv.2
  | none => if ft = "datetime.DateTime" then "time.Time" else ft

/-- One line of the entity struct declaration (main.go lines 230 to 251). -/
def entityFieldLine (f : FieldMeta) : Option String :=
  (privateFieldOf f.FieldName).map (fun pf =>
    "\t" ++ padRight pf 30 ++ " " ++ padRight (entityFieldType f.FieldType) 20
      ++ " // " ++ f.Comment ++ "\n")

/-- The field access of the PO-to-entity conversion (main.go lines 263 to
277): the switch appends a value accessor for five of the six nullable
wrappers and for the plain date-time type, and reads every other type
directly. -/
def po2entityAccess (f : FieldMeta) : String :=
  if f.FieldType = "sql.NullString" then f.FieldName ++ ".String"
  else if f.FieldType = "datetime.NullDateTime" then f.FieldName ++ ".Time.Time()"
  else if f.FieldType = "datetime.DateTime" then f.FieldName ++ ".Time()"
  else if f.FieldType = "sql.NullInt32" then f.FieldName ++ ".Int32"
  else if f.FieldType = "sql.NullInt64" then f.FieldName ++ ".Int64"
  else if f.FieldType = "sql.NullFloat64" then f.FieldName ++ ".Float64"
  else f.FieldName

/-- One builder call of the PO-to-entity conversion (main.go lines 261 to
281). -/
def toEntityLine (f : FieldMeta) : Option String :=
  (privateFieldOf f.FieldName).map (fun pf =>
    "\t\tWith" ++ goTitle pf ++ "(p." ++ po2entityAccess f ++ ").\n")

/-- strings.TrimPrefix of the Go standard library. -/
def goTrimPrefix (s pre : String) : String :=
  if isPrefixB pre.data s.data then String.mk (s.data.drop pre.data.length) else s

/-- The field value of the entity-to-PO conversion (main.go lines 291 to
305): re-wrap into the nullable wrapper marked valid, wrap the plain
date-time, and pass every other type through. -/
def entity2poAccess (f : FieldMeta) (pf : String) : String :=
  let acc := "e." ++ goTitle pf ++ "()"
  if f.FieldType = "sql.NullString" then
    "sql.NullString\x7bString: " ++ acc ++ ", Valid: true\x7d"
  else if f.FieldType = "datetime.NullDateTime" then
    "TimeToNullDateTime(" ++ acc ++ ")"
  else if f.FieldType = "datetime.DateTime" then
    "datetime.NewDateTime(" ++ acc ++ ")"
  else if f.FieldType = "sql.NullInt32" ∨ f.FieldType = "sql.NullInt64"
      ∨ f.FieldType = "sql.NullFloat64" then
    f.FieldType ++ "\x7b"
      ++ goTitle (goTrimPrefix f.FieldType "sql.Null") ++ ": " ++ acc
      ++ ", Valid: true\x7d"
  else acc

/-- One struct-literal line of the entity-to-PO conversion (main.go lines
289 to 309). -/
def toPoLine (f : FieldMeta) : Option String :=
  (privateFieldOf f.FieldName).map (fun pf =>
    "\t\t" ++ padRight f.FieldName 15 ++ ": " ++ entity2poAccess f pf ++ ",\n")

/-- Option-valued map over a list, keeping all results (the rendering
loops in sequence; any panicking iteration aborts the whole rendering). -/
def mapOption (g : α → Option β) : List α → Option (List β)
  | [] => some []
  | a :: l =>
    match g a, mapOption g l with
    | some b, some bs => some (b :: bs)
    | _, _ => none

/-- The needTimeFunc loop (main.go lines 312 to 318): some field has the
nullable date-time type. -/
def needTimeFunc (fields : List FieldMeta) : Bool :=
  fields.any (fun f => f.FieldType == "datetime.NullDateTime")

/-- The raw string literal of the emitted TimeToNullDateTime helper
(main.go lines 320 to 326). -/
def timeHelperText : String :=
  "// TimeToNullDateTime Time 转成 datetime.NullDateTime\nfunc TimeToNullDateTime(t time.Time) datetime.NullDateTime \x7b\n\tif !t.IsZero() \x7b\n\t\treturn datetime.NullDateTime\x7bTime: datetime.NewDateTime(t), Valid: true\x7d\n\t\x7d\n\treturn datetime.NullDateTime\x7bValid: false\x7d\n\x7d"

/-- The closing literal of the entity-to-PO conversion; the entity block
always ends with it when the time helper is not appended. -/
def entityTailLit : String := "\t\x7d, nil\n\x7d\n\n"

/-- The entity-side block without the optional time helper (main.go lines
225 to 310): entity struct, Validate stub, PO-to-entity conversion and
entity-to-PO conversion; none when a field name is empty and the
rendering would panic. -/
def entityCore (p : SQLParser) : Option String :=
  match mapOption entityFieldLine p.Fields, mapOption toEntityLine p.Fields,
      mapOption toPoLine p.Fields with
  | some efs, some tes, some tps =>
    some (("package entity\n\n"
      ++ "//go:generate entitytool -source=$GOFILE -entity=" ++ p.SecondStructName ++ " \n\n"
      ++ "// " ++ p.SecondStructName ++ " entity结构体\n"
      ++ "type " ++ p.SecondStructName ++ " struct \x7b\n"
      ++ String.join efs
      ++ "\x7d\n\n"
      ++ "func (e *" ++ p.SecondStructName ++ ") Validate() error \x7b\n\treturn nil\n\x7d\n\n"
      ++ "// To" ++ p.SecondStructName ++ "Entity po to entity\n"
      ++ "func To" ++ p.SecondStructName ++ "Entity(p *po." ++ p.StructName
      ++ ") (*entity." ++ p.SecondStructName ++ ", error) \x7b\n"
      ++ "\treturn entity.New" ++ p.SecondStructName ++ "Builder().\n"
      ++ String.join tes
      ++ "\t\tBuild()\n\x7d\n\n"
      ++ "// To" ++ p.StructName ++ " entity to po\n"
      ++ "func To" ++ p.StructName ++ "(e *entity." ++ p.SecondStructName
      ++ ") (*po." ++ p.StructName ++ ", error) \x7b\n"
      ++ "\treturn &po." ++ p.StructName ++ "\x7b\n"
      ++ String.join tps)
      ++ entityTailLit)
  | _, _, _ => none

/-- The conditional entity block: empty when no secondary struct name is
configured (main.go line 224); otherwise the entity block, with the time
helper appended exactly when some field has the nullable date-time type
(main.go lines 312 to 327). -/
def entityPart (p : SQLParser) : Option String :=
  if p.SecondStructName = "" then some ""
  else (entityCore p).map (fun core =>
    core ++ (if needTimeFunc p.Fields then timeHelperText else ""))

/-- The full rendered text of GenerateStruct. -/
def contentOf (p : SQLParser) : Option String :=
  (entityPart p).map (fun e => poSection p ++ e)

/-- filepath.Join restricted to the use here: an empty directory leaves
the name, otherwise the two are joined with a slash (the path cleaning of
the Go function is irrelevant to every claim). -/
def goPathJoin (dir name : String) : String :=
  if dir = "" then name else dir ++ "/" ++ name

/-- GenerateStruct (main.go lines 204 to 334): the output file name and
the rendered text, together with the receiver state after the call; none
models the slice-bounds panic on an empty derived field name. The file
write and its error path are input/output outside the embedding. -/
def GenerateStruct (p : SQLParser) (outputDir : String) :
    Option ((String × String) × SQLParser) :=
  (contentOf p).map (fun c =>
    ((goPathJoin outputDir (ToSnakeCase p.SecondStructName ++ "_template.go"), c), p))

/-- GetOutputPath (main.go lines 336 to 338). -/
def GetOutputPath (p : SQLParser) (outputDir : String) : String :=
  goPathJoin outputDir (ToSnakeCase p.SecondStructName ++ "_template.go")

/-!
Claim-side definitions: the snake-case shape quantified over by the
round-trip claim, and the nullability policy exactly as the specification
words it, kept for comparison against the embedded code.
-/

/-- First-letter capitalization of one segment: the effect the claim
ascribes to each underscore-delimited segment of a snake-case name. -/
def capFirst : List Char → List Char
  | [] => []
  | c :: rest => toUpperChar c :: rest

/-- A well-formed snake-case segment as quantified over by the round-trip
claim: nonempty, a lowercase ASCII letter first, lowercase letters or
digits after (no uppercase letters anywhere). -/
def goodSegB : List Char → Bool
  | [] => false
  | c :: rest => isLowerAscii c && rest.all (fun d => isLowerAscii d || isDigitChar d)

/-- Joining segments with single underscores: the shape of a snake-case
string. -/
def snakeJoin : List (List Char) → List Char
  | [] => []
  | [seg] => seg
  | seg :: rest => seg ++ Char.ofNat 95 :: snakeJoin rest

/-- Whitespace tokenisation with explicit fuel (used only by the
claim-side nullability policy). -/
def wsTokensAux : Nat → List Char → List (List Char)
  | 0, _ => []
  | _, [] => []
  | Nat.succ fuel, c :: rest =>
    if isSpaceRE c then wsTokensAux fuel rest
    else (c :: rest.takeWhile (fun d => !isSpaceRE d))
      :: wsTokensAux fuel (rest.drop (rest.takeWhile (fun d => !isSpaceRE d)).length)

/-- Maximal whitespace-separated tokens of a character list. -/
def wsTokens (l : List Char) : List (List Char) := wsTokensAux l.length l

/-- The nullability policy exactly as the claim words it, written from the
specification text and not from the code, for comparison: a NOT NULL
token pair makes the column non-nullable; otherwise a DEFAULT NULL token
pair or a standalone NULL token makes it nullable; tokens are maximal
whitespace-separated runs, compared case-insensitively. -/
def specNullabilityPolicy (other : List Char) : Bool :=
  let toks := (wsTokens other).map (fun t => t.map toUpperChar)
  let adjacent := fun (a b : List Char) =>
    (toks.zip toks.tail).any (fun x => x.1 == a && x.2 == b)
  if adjacent "NOT".data "NULL".data then false
  else adjacent "DEFAULT".data "NULL".data || toks.any (fun t => t == "NULL".data)

/-- The nullable date-time wrapper type of the generated code, with the
date-time value modelled as an integer whose zero is the unset time (the
IsZero test of time.Time), and NewDateTime as the identity embedding. -/
structure NullDateTime where
  Time : Int
  Valid : Bool
deriving DecidableEq, Repr

/-- The emitted helper TimeToNullDateTime, transcribed from the raw string
literal the generator outputs (main.go lines 320 to 326): a non-zero time
becomes a wrapper marked valid carrying the value; the zero time becomes a
wrapper marked invalid whose time field keeps its zero value. -/
def emittedTimeToNullDateTime (t : Int) : NullDateTime :=
  if t ≠ 0 then { Time := t, Valid := true } else { Time := 0, Valid := false }

/-- Boolean suffix test: a reversed prefix test. -/
def strEndsWith (s t : String) : Bool := isPrefixB t.data.reverse s.data.reverse

/-- Input holding a table declaration with a templated suffix. -/
def c1input : String :=
  "CREATE TABLE shard.orders_\x7bregion\x7d (\n  `id` BIGINT NOT NULL COMMENT "
    ++ sq ++ "id" ++ sq ++ "\n)"

/-- Input with a column whose other clause is the single token XNULL. -/
def c3input : String :=
  "CREATE TABLE db.t (\n`a` INT XNULL COMMENT " ++ sq ++ "c" ++ sq ++ "\n)"

/-- Input with a column of the unmapped type keyword ENUM. -/
def c4input : String :=
  "CREATE TABLE db.t (\n`status` ENUM(1) NOT NULL COMMENT " ++ sq ++ "s" ++ sq ++ "\n)"

/-- Input whose single column is named f: the derived PascalCase field
name is empty after the F-strip. -/
def c8input : String :=
  "CREATE TABLE db.t (\n`f` INT NOT NULL COMMENT " ++ sq ++ "x" ++ sq ++ "\n)"

/-- A well-formed three-column input used by concrete instantiations. -/
def wInput : String :=
  "CREATE TABLE db.orders (\n`id` BIGINT NOT NULL COMMENT " ++ sq ++ "id" ++ sq
    ++ ",\n`user_name` VARCHAR(64) NOT NULL COMMENT " ++ sq ++ "name" ++ sq
    ++ ",\n`created_at` DATETIME DEFAULT NULL COMMENT " ++ sq ++ "ts" ++ sq ++ "\n)"

/-- The parser populated from wInput with both struct names configured. -/
def pW : SQLParser := parseOk ["OrderPo", "Order"] wInput

/-- The parser populated from wInput with no secondary struct name. -/
def pNoSecond : SQLParser := parseOk ["OrderPo"] wInput

/-- A descriptor with the nullable 32-bit-float wrapper type, as the Type
Mapper produces for a nullable FLOAT column. -/
def c2price : FieldMeta :=
  { FieldName := "Price", FieldType := "sql.NullFloat32", Comment := "p",
    Validate := "", OriginalField := "price" }

/-- A descriptor with the plain (non-nullable) date-time type. -/
def c2created : FieldMeta :=
  { FieldName := "CreatedAt", FieldType := "datetime.DateTime", Comment := "ts",
    Validate := "", OriginalField := "created_at" }

/-- A concrete VARCHAR column match. -/
def c5m : FieldMatch :=
  { name := "user_name".data, rawType := "VARCHAR(64)".data,
    other := "NOT NULL".data, comment := "user name".data }

/-- A concrete ENUM column match. -/
def c4m : FieldMatch :=
  { name := "status".data, rawType := "ENUM(1)".data,
    other := "NOT NULL".data, comment := "s".data }

/-- Concrete segments of the snake-case witness. -/
def segsW : List (List Char) := ["user".data, "name".data]

/-!
Helper lemmas.
-/

lemma char_toNat_ofNat (n : Nat) (h : n < 55296) : (Char.ofNat n).toNat = n := by
  have hv : n.isValidChar := Or.inl h
  rw [Char.ofNat, dif_pos hv]
  simp [Char.ofNatAux, Char.toNat, UInt32.toNat, UInt32.ofNatCore]

lemma isLowerAscii_range {c : Char} (h : isLowerAscii c = true) :
    97 ≤ c.toNat ∧ c.toNat ≤ 122 := by
  simpa [isLowerAscii] using h

lemma isDigitChar_range {c : Char} (h : isDigitChar c = true) :
    48 ≤ c.toNat ∧ c.toNat ≤ 57 := by
  simpa [isDigitChar] using h

lemma toUpperChar_toNat {c : Char} (h : isLowerAscii c = true) :
    (toUpperChar c).toNat = c.toNat - 32 := by
  have hr := isLowerAscii_range h
  unfold toUpperChar
  rw [if_pos h]
  exact char_toNat_ofNat _ (by omega)

lemma isUpperAscii_toUpperChar {c : Char} (h : isLowerAscii c = true) :
    isUpperAscii (toUpperChar c) = true := by
  have hr := isLowerAscii_range h
  have ht := toUpperChar_toNat h
  simp [isUpperAscii, ht]
  omega

lemma toLowerChar_toUpperChar {c : Char} (h : isLowerAscii c = true) :
    toLowerChar (toUpperChar c) = c := by
  have hr := isLowerAscii_range h
  have ht := toUpperChar_toNat h
  unfold toLowerChar
  rw [if_pos (isUpperAscii_toUpperChar h)]
  rw [ht]
  have h2 : c.toNat - 32 + 32 = c.toNat := by omega
  rw [h2, Char.ofNat_toNat]

lemma isUpperAscii_of_lower {c : Char} (h : isLowerAscii c = true) :
    isUpperAscii c = false := by
  have hr := isLowerAscii_range h
  simp [isUpperAscii]
  omega

lemma isUpperAscii_of_digit {c : Char} (h : isDigitChar c = true) :
    isUpperAscii c = false := by
  have hr := isDigitChar_range h
  simp [isUpperAscii]
  omega

lemma ne_underscore_of_ld {c : Char} (h : isLowerAscii c = true ∨ isDigitChar c = true) :
    c ≠ Char.ofNat 95 := by
  intro he
  have hn : c.toNat = 95 := by rw [he]; decide
  rcases h with h | h
  · have := isLowerAscii_range h; omega
  · have := isDigitChar_range h; omega

lemma toUpperChar_ne_F {c : Char} (hl : isLowerAscii c = true)
    (hf : c ≠ Char.ofNat 102) : toUpperChar c ≠ Char.ofNat 70 := by
  intro he
  have hr := isLowerAscii_range hl
  have h1 : (toUpperChar c).toNat = c.toNat - 32 := toUpperChar_toNat hl
  have h2 : (toUpperChar c).toNat = 70 := by rw [he]; decide
  have h3 : c.toNat = 102 := by omega
  apply hf
  rw [← Char.ofNat_toNat c, h3]

lemma isSeparatorGo_false_of_ld {c : Char}
    (h : isLowerAscii c = true ∨ isDigitChar c = true) : isSeparatorGo c = false := by
  unfold isSeparatorGo isAlphaAscii
  rcases h with h | h <;> simp [h]

lemma goodSegB_cons {c : Char} {rest : List Char}
    (h : goodSegB (c :: rest) = true) :
    isLowerAscii c = true ∧ ∀ d ∈ rest, isLowerAscii d = true ∨ isDigitChar d = true := by
  unfold goodSegB at h
  rw [Bool.and_eq_true, List.all_eq_true] at h
  refine ⟨h.1, fun d hd => ?_⟩
  have := h.2 d hd
  rcases Bool.or_eq_true_iff.mp this with h' | h'
  · exact Or.inl h'
  · exact Or.inr h'

lemma titleMap_id {l : List Char} (hl : ∀ c ∈ l, isSeparatorGo c = false) :
    ∀ p, isSeparatorGo p = false → titleMap p l = l := by
  induction l with
  | nil => intro p _; rfl
  | cons c rest ih =>
    intro p hp
    unfold titleMap
    rw [hp]
    simp only [Bool.false_eq_true, if_false]
    congr 1
    exact ih (fun d hd => hl d (List.mem_cons_of_mem _ hd)) c (hl c (List.mem_cons_self _ _))

lemma titleMap_goodSeg {seg : List Char} (h : goodSegB seg = true) :
    titleMap (Char.ofNat 32) seg = capFirst seg := by
  cases seg with
  | nil => simp [goodSegB] at h
  | cons c rest =>
    obtain ⟨h1, h2⟩ := goodSegB_cons h
    unfold titleMap capFirst
    have hs : isSeparatorGo (Char.ofNat 32) = true := by decide
    rw [hs]
    simp only [if_true]
    congr 1
    exact titleMap_id (fun d hd => isSeparatorGo_false_of_ld (h2 d hd)) c
      (isSeparatorGo_false_of_ld (Or.inl h1))

lemma splitOnChar_no_sep {u : Char} {l : List Char} (h : u ∉ l) :
    splitOnChar u l = [l] := by
  induction l with
  | nil => rfl
  | cons c rest ih =>
    simp only [splitOnChar]
    rw [if_neg (fun he => h (by rw [← he]; exact List.mem_cons_self _ _))]
    rw [ih (fun hm => h (List.mem_cons_of_mem _ hm))]

lemma splitOnChar_append {u : Char} {l tail : List Char} (h : u ∉ l) :
    splitOnChar u (l ++ u :: tail) = l :: splitOnChar u tail := by
  induction l with
  | nil =>
    simp only [List.nil_append]
    simp only [splitOnChar]
    simp
  | cons c rest ih =>
    simp only [List.cons_append]
    simp only [splitOnChar]
    rw [if_neg (fun he => h (by rw [← he]; exact List.mem_cons_self _ _))]
    rw [ih (fun hm => h (List.mem_cons_of_mem _ hm))]

lemma goodSegB_no_underscore {seg : List Char} (h : goodSegB seg = true) :
    Char.ofNat 95 ∉ seg := by
  cases seg with
  | nil => simp
  | cons c rest =>
    obtain ⟨h1, h2⟩ := goodSegB_cons h
    intro hm
    rcases List.mem_cons.mp hm with he | hm'
    · exact ne_underscore_of_ld (Or.inl h1) he.symm
    · exact ne_underscore_of_ld (h2 _ hm') rfl

lemma splitOnChar_snakeJoin {segs : List (List Char)} (h1 : segs ≠ [])
    (h2 : ∀ seg ∈ segs, goodSegB seg = true) :
    splitOnChar (Char.ofNat 95) (snakeJoin segs) = segs := by
  induction segs with
  | nil => exact absurd rfl h1
  | cons seg rest ih =>
    cases rest with
    | nil =>
      show splitOnChar (Char.ofNat 95) (snakeJoin [seg]) = [seg]
      unfold snakeJoin
      exact splitOnChar_no_sep (goodSegB_no_underscore (h2 seg (List.mem_cons_self _ _)))
    | cons seg2 rest2 =>
      show splitOnChar (Char.ofNat 95) (seg ++ Char.ofNat 95 :: snakeJoin (seg2 :: rest2))
        = seg :: (seg2 :: rest2)
      rw [splitOnChar_append (goodSegB_no_underscore (h2 seg (List.mem_cons_self _ _)))]
      rw [ih (by simp) (fun s hs => h2 s (List.mem_cons_of_mem _ hs))]

lemma snakeAux_id {l : List Char} (h : ∀ c ∈ l, isUpperAscii c = false) :
    ∀ b, snakeAux b l = l := by
  induction l with
  | nil => intro b; rfl
  | cons c rest ih =>
    intro b
    unfold snakeAux
    rw [h c (List.mem_cons_self _ _)]
    simp only [Bool.false_eq_true, if_false]
    rw [ih (fun d hd => h d (List.mem_cons_of_mem _ hd)) true]
    rfl

lemma snakeAux_true_append : ∀ (xs ys : List Char),
    snakeAux true (xs ++ ys) = snakeAux true xs ++ snakeAux true ys := by
  intro xs
  induction xs with
  | nil => intro ys; rfl
  | cons x xs' ih =>
    intro ys
    show snakeAux true (x :: (xs' ++ ys)) = snakeAux true (x :: xs') ++ snakeAux true ys
    simp only [snakeAux]
    rw [ih ys]
    simp only [List.append_assoc]

lemma snakeAux_append : ∀ (xs : List Char) (x : Char) (ys : List Char) (b : Bool),
    snakeAux b ((x :: xs) ++ ys) = snakeAux b (x :: xs) ++ snakeAux true ys := by
  intro xs x ys b
  show snakeAux b (x :: (xs ++ ys)) = snakeAux b (x :: xs) ++ snakeAux true ys
  simp only [snakeAux]
  rw [snakeAux_true_append xs ys]
  simp only [List.append_assoc]

lemma snakeAux_capFirst_false {seg : List Char} (h : goodSegB seg = true) :
    snakeAux false (capFirst seg) = seg := by
  cases seg with
  | nil => simp [goodSegB] at h
  | cons c rest =>
    obtain ⟨h1, h2⟩ := goodSegB_cons h
    unfold capFirst snakeAux
    rw [isUpperAscii_toUpperChar h1]
    simp only [if_true, Bool.false_eq_true, if_false]
    rw [toLowerChar_toUpperChar h1]
    rw [snakeAux_id (fun d hd => (h2 d hd).elim isUpperAscii_of_lower isUpperAscii_of_digit) true]
    rfl

lemma snakeAux_capFirst_true {seg : List Char} (h : goodSegB seg = true) :
    snakeAux true (capFirst seg) = Char.ofNat 95 :: seg := by
  cases seg with
  | nil => simp [goodSegB] at h
  | cons c rest =>
    obtain ⟨h1, h2⟩ := goodSegB_cons h
    unfold capFirst snakeAux
    rw [isUpperAscii_toUpperChar h1]
    simp only [if_true]
    rw [toLowerChar_toUpperChar h1]
    rw [snakeAux_id (fun d hd => (h2 d hd).elim isUpperAscii_of_lower isUpperAscii_of_digit) true]
    rfl

lemma capFirst_ne_nil {seg : List Char} (h : goodSegB seg = true) :
    capFirst seg ≠ [] := by
  cases seg with
  | nil => simp [goodSegB] at h
  | cons c rest => simp [capFirst]

lemma snakeAux_true_flatten {segs : List (List Char)} (h1 : segs ≠ [])
    (h2 : ∀ seg ∈ segs, goodSegB seg = true) :
    snakeAux true ((segs.map capFirst).flatten) = Char.ofNat 95 :: snakeJoin segs := by
  induction segs with
  | nil => exact absurd rfl h1
  | cons seg rest ih =>
    have hseg := h2 seg (List.mem_cons_self _ _)
    cases rest with
    | nil =>
      show snakeAux true (capFirst seg ++ [].flatten) = Char.ofNat 95 :: snakeJoin [seg]
      simp only [List.flatten_nil, List.append_nil]
      rw [snakeAux_capFirst_true hseg]
      rfl
    | cons seg2 rest2 =>
      show snakeAux true (capFirst seg ++ ((seg2 :: rest2).map capFirst).flatten)
        = Char.ofNat 95 :: snakeJoin (seg :: seg2 :: rest2)
      obtain ⟨c, r, hcr⟩ : ∃ c r, capFirst seg = c :: r := by
        cases hs : capFirst seg with
        | nil => exact absurd hs (capFirst_ne_nil hseg)
        | cons c r => exact ⟨c, r, rfl⟩
      rw [hcr, snakeAux_append, ← hcr]
      rw [ih (by simp) (fun s hs => h2 s (List.mem_cons_of_mem _ hs))]
      rw [snakeAux_capFirst_true hseg]
      rfl

lemma snakeAux_false_flatten {segs : List (List Char)} (h1 : segs ≠ [])
    (h2 : ∀ seg ∈ segs, goodSegB seg = true) :
    snakeAux false ((segs.map capFirst).flatten) = snakeJoin segs := by
  induction segs with
  | nil => exact absurd rfl h1
  | cons seg rest ih =>
    have hseg := h2 seg (List.mem_cons_self _ _)
    cases rest with
    | nil =>
      show snakeAux false (capFirst seg ++ [].flatten) = snakeJoin [seg]
      simp only [List.flatten_nil, List.append_nil]
      rw [snakeAux_capFirst_false hseg]
      rfl
    | cons seg2 rest2 =>
      show snakeAux false (capFirst seg ++ ((seg2 :: rest2).map capFirst).flatten)
        = snakeJoin (seg :: seg2 :: rest2)
      obtain ⟨c, r, hcr⟩ : ∃ c r, capFirst seg = c :: r := by
        cases hs : capFirst seg with
        | nil => exact absurd hs (capFirst_ne_nil hseg)
        | cons c r => exact ⟨c, r, rfl⟩
      rw [hcr, snakeAux_append, ← hcr]
      rw [snakeAux_true_flatten (by simp) (fun s hs => h2 s (List.mem_cons_of_mem _ hs))]
      rw [snakeAux_capFirst_false hseg]
      rfl

lemma pascalChars_snakeJoin {segs : List (List Char)} (h1 : segs ≠ [])
    (h2 : ∀ seg ∈ segs, goodSegB seg = true)
    (h3 : (segs.headD []).head? ≠ some (Char.ofNat 102)) :
    pascalChars (snakeJoin segs) = (segs.map capFirst).flatten := by
  simp only [pascalChars]
  rw [splitOnChar_snakeJoin h1 h2]
  rw [List.map_congr_left (fun seg hs => titleMap_goodSeg (h2 seg hs))]
  obtain ⟨seg1, rest, rfl⟩ := List.exists_cons_of_ne_nil h1
  obtain ⟨c, r, rfl⟩ : ∃ c r, seg1 = c :: r := by
    cases hs : seg1 with
    | nil =>
      rw [hs] at h2
      simpa [goodSegB] using h2 [] (List.mem_cons_self _ _)
    | cons c r => exact ⟨c, r, rfl⟩
  have hlow : isLowerAscii c = true :=
    (goodSegB_cons (h2 _ (List.mem_cons_self _ _))).1
  have hne : c ≠ Char.ofNat 102 := by
    intro he
    exact h3 (by simp [he])
  have hf : (((c :: r) :: rest).map capFirst).flatten
      = toUpperChar c :: (r ++ (rest.map capFirst).flatten) := by
    simp [capFirst]
  rw [hf]
  show (if toUpperChar c = Char.ofNat 70 then
      (match r ++ (List.map capFirst rest).flatten with
        | [] => ([] : List Char)
        | d :: rest2 => toUpperChar d :: rest2)
    else toUpperChar c :: (r ++ (List.map capFirst rest).flatten))
    = toUpperChar c :: (r ++ (List.map capFirst rest).flatten)
  rw [if_neg (toUpperChar_ne_F hlow hne)]

/-- C6: for every snake-case string made of nonempty lowercase-initial
segments, none containing uppercase letters, whose PascalCase form does
not begin with the stripped marker letter F, ToPascalCase capitalizes the
first letter of each underscore-delimited segment and removes the
underscores, and ToSnakeCase applied to the result reproduces the input
exactly, hence also up to case. -/
theorem c6_pascal_snake_roundtrip (segs : List (List Char)) (h1 : segs ≠ [])
    (h2 : ∀ seg ∈ segs, goodSegB seg = true)
    (h3 : (segs.headD []).head? ≠ some (Char.ofNat 102)) :
    ToPascalCase (String.mk (snakeJoin segs)) = String.mk ((segs.map capFirst).flatten)
      ∧ ToSnakeCase (ToPascalCase (String.mk (snakeJoin segs)))
          = String.mk (snakeJoin segs) := by
  have hp : pascalChars (snakeJoin segs) = (segs.map capFirst).flatten :=
    pascalChars_snakeJoin h1 h2 h3
  have hs : snakeAux false ((segs.map capFirst).flatten) = snakeJoin segs :=
    snakeAux_false_flatten h1 h2
  refine ⟨?_, ?_⟩
  · show String.mk (pascalChars (snakeJoin segs)) = String.mk ((segs.map capFirst).flatten)
    rw [hp]
  · show String.mk (snakeAux false (pascalChars (snakeJoin segs))) = String.mk (snakeJoin segs)
    rw [hp, hs]

/-- Witness for C6: the round-trip theorem applied to the segments of
user_name. -/
theorem c6_witness :
    ToPascalCase (String.mk (snakeJoin segsW)) = String.mk ((segsW.map capFirst).flatten)
      ∧ ToSnakeCase (ToPascalCase (String.mk (snakeJoin segsW)))
          = String.mk (snakeJoin segsW) :=
  c6_pascal_snake_roundtrip segsW (by decide) (by decide) (by decide)

lemma privateFieldOf_isSome {name : String} (h : name ≠ "") :
    (privateFieldOf name).isSome = true := by
  cases name with
  | mk data =>
    cases data with
    | nil => exact absurd rfl h
    | cons c rest => rfl

lemma mapOption_isSome {α β : Type} (g : α → Option β) :
    ∀ (l : List α), (∀ a ∈ l, (g a).isSome = true) → ∃ bs, mapOption g l = some bs := by
  intro l
  induction l with
  | nil => intro _; exact ⟨[], rfl⟩
  | cons a rest ih =>
    intro h
    obtain ⟨b, hb⟩ := Option.isSome_iff_exists.mp (h a (List.mem_cons_self _ _))
    obtain ⟨bs, hbs⟩ := ih (fun x hx => h x (List.mem_cons_of_mem _ hx))
    exact ⟨b :: bs, by simp [mapOption, hb, hbs]⟩

lemma entityCore_isSome {p : SQLParser} (h : ∀ f ∈ p.Fields, f.FieldName ≠ "") :
    ∃ s, entityCore p = some s := by
  have hef : ∀ f ∈ p.Fields, (entityFieldLine f).isSome = true := by
    intro f hf
    simp [entityFieldLine, Option.isSome_map, privateFieldOf_isSome (h f hf)]
  have hte : ∀ f ∈ p.Fields, (toEntityLine f).isSome = true := by
    intro f hf
    simp [toEntityLine, Option.isSome_map, privateFieldOf_isSome (h f hf)]
  have htp : ∀ f ∈ p.Fields, (toPoLine f).isSome = true := by
    intro f hf
    simp [toPoLine, Option.isSome_map, privateFieldOf_isSome (h f hf)]
  obtain ⟨efs, hefs⟩ := mapOption_isSome entityFieldLine p.Fields hef
  obtain ⟨tes, htes⟩ := mapOption_isSome toEntityLine p.Fields hte
  obtain ⟨tps, htps⟩ := mapOption_isSome toPoLine p.Fields htp
  exact ⟨_, by unfold entityCore; rw [hefs, htes, htps]⟩

lemma generateStruct_total {p : SQLParser} (dir : String)
    (h : ∀ f ∈ p.Fields, f.FieldName ≠ "") :
    ∃ r, GenerateStruct p dir = some r := by
  by_cases hs : p.SecondStructName = ""
  · exact ⟨_, by unfold GenerateStruct contentOf entityPart; rw [if_pos hs]; rfl⟩
  · obtain ⟨s, hcore⟩ := entityCore_isSome h
    exact ⟨_, by unfold GenerateStruct contentOf entityPart; rw [if_neg hs, hcore]; rfl⟩

lemma generateStruct_state {p : SQLParser} {dir : String}
    {r : (String × String) × SQLParser} (h : GenerateStruct p dir = some r) :
    r.2 = p := by
  cases hc : contentOf p with
  | none => simp [GenerateStruct, hc] at h
  | some c =>
    simp [GenerateStruct, hc] at h
    simp [← h]

lemma isPrefixB_self_append : ∀ (l m : List Char), isPrefixB l (l ++ m) = true := by
  intro l m
  induction l with
  | nil => rfl
  | cons c rest ih => simp [isPrefixB, ih]

lemma strEndsWith_append_self (a t : String) : strEndsWith (a ++ t) t = true := by
  unfold strEndsWith
  rw [String.data_append, List.reverse_append]
  exact isPrefixB_self_append _ _

lemma strEndsWith_false_of_last_ne {s t : String} (c d : Char)
    (hs : s.data.getLast? = some c) (ht : t.data.getLast? = some d) (hne : d ≠ c) :
    strEndsWith s t = false := by
  unfold strEndsWith
  have hs' : s.data.reverse.head? = some c := by rw [List.head?_reverse]; exact hs
  have ht' : t.data.reverse.head? = some d := by rw [List.head?_reverse]; exact ht
  obtain ⟨srest, hsr⟩ : ∃ rest, s.data.reverse = c :: rest := by
    cases hsd : s.data.reverse with
    | nil => rw [hsd] at hs'; simp at hs'
    | cons x xs =>
      rw [hsd] at hs'
      simp at hs'
      exact ⟨xs, by rw [hs']⟩
  obtain ⟨trest, htr⟩ : ∃ rest, t.data.reverse = d :: rest := by
    cases htd : t.data.reverse with
    | nil => rw [htd] at ht'; simp at ht'
    | cons x xs =>
      rw [htd] at ht'
      simp at ht'
      exact ⟨xs, by rw [ht']⟩
  rw [hsr, htr]
  simp [isPrefixB, hne]

lemma getLast?_append_right (l1 l2 : List Char) (h : l2 ≠ []) :
    (l1 ++ l2).getLast? = l2.getLast? := by
  rw [← List.head?_reverse, ← List.head?_reverse, List.reverse_append]
  cases hr : l2.reverse with
  | nil => exact absurd (by simpa using hr) h
  | cons x xs => simp [hr]

lemma poSection_last (p : SQLParser) :
    (poSection p).data.getLast? = some (Char.ofNat 10) := by
  unfold poSection
  rw [String.data_append]
  rw [getLast?_append_right _ _ (by decide)]
  decide

lemma entityCore_shape {p : SQLParser} {s : String} (h : entityCore p = some s) :
    ∃ x : String, s = x ++ entityTailLit := by
  unfold entityCore at h
  cases h1 : mapOption entityFieldLine p.Fields with
  | none => rw [h1] at h; simp at h
  | some efs =>
    cases h2 : mapOption toEntityLine p.Fields with
    | none => rw [h1, h2] at h; simp at h
    | some tes =>
      cases h3 : mapOption toPoLine p.Fields with
      | none => rw [h1, h2, h3] at h; simp at h
      | some tps =>
        rw [h1, h2, h3] at h
        simp only [Option.some.injEq] at h
        exact ⟨_, h.symm⟩

/-!
Claim theorems.
-/

/-- C1: evaluation of the code at the failing input. On a table
declaration with a templated suffix, `CREATE TABLE shard.orders_` followed
by a braced placeholder, Parse sets the table name to orders_ with the
joining underscore kept, not to orders as the claim and specification
state: the greedy word class of the pattern swallows the underscore, so
the optional brace-suffix group, written to discard the placeholder, can
never consume anything. -/
theorem c1_templated_table_name :
    (parseOk ["Po", "Entity"] c1input).TableName = "orders_"
      ∧ (parseOk ["Po", "Entity"] c1input).TableName ≠ "orders"
      ∧ findTableMatch "CREATE TABLE shard.orders_\x7bregion\x7d (".data
          = some "orders_".data := by
  refine ⟨by decide, by decide, by decide⟩

/-- C2 counterexample: the nullable 32-bit-float wrapper is among the
types the Type Mapper can produce, yet the emitted builder call reads such
a field directly, with no value accessor; and the plain date-time type,
which is not a nullable wrapper, is not read directly either. -/
theorem c2_counterexample :
    ("FLOAT", "sql.NullFloat32") ∈ (NewSQLParser []).NullableTypeMappings
      ∧ po2entityAccess c2price = "Price"
      ∧ toEntityLine c2price = some "\t\tWithPrice(p.Price).\n"
      ∧ po2entityAccess c2created = "CreatedAt.Time()" := by
  refine ⟨by decide, by decide, by decide, by decide⟩

/-- C2 amended: in the emitted PO-to-entity conversion the builder call
appends a value accessor for exactly sql.NullString, datetime.NullDateTime,
datetime.DateTime, sql.NullInt32, sql.NullInt64 and sql.NullFloat64; every
other type, among them the nullable 32-bit-float wrapper sql.NullFloat32,
is read directly. -/
theorem c2_po_to_entity_access (f : FieldMeta) :
    (f.FieldType = "sql.NullString" → po2entityAccess f = f.FieldName ++ ".String")
    ∧ (f.FieldType = "datetime.NullDateTime" →
        po2entityAccess f = f.FieldName ++ ".Time.Time()")
    ∧ (f.FieldType = "datetime.DateTime" → po2entityAccess f = f.FieldName ++ ".Time()")
    ∧ (f.FieldType = "sql.NullInt32" → po2entityAccess f = f.FieldName ++ ".Int32")
    ∧ (f.FieldType = "sql.NullInt64" → po2entityAccess f = f.FieldName ++ ".Int64")
    ∧ (f.FieldType = "sql.NullFloat64" → po2entityAccess f = f.FieldName ++ ".Float64")
    ∧ (f.FieldType ∉ (["sql.NullString", "datetime.NullDateTime", "datetime.DateTime",
          "sql.NullInt32", "sql.NullInt64", "sql.NullFloat64"] : List String) →
        po2entityAccess f = f.FieldName)
    ∧ (∀ pf, privateFieldOf f.FieldName = some pf →
        toEntityLine f = some ("\t\tWith" ++ goTitle pf ++ "(p." ++ po2entityAccess f ++ ").\n")) := by
  refine ⟨?_, ?_, ?_, ?_, ?_, ?_, ?_, ?_⟩
  · intro h; simp [po2entityAccess, h]
  · intro h; simp [po2entityAccess, h]
  · intro h; simp [po2entityAccess, h]
  · intro h; simp [po2entityAccess, h]
  · intro h; simp [po2entityAccess, h]
  · intro h; simp [po2entityAccess, h]
  · intro h
    simp only [List.mem_cons, List.not_mem_nil, or_false, not_or] at h
    obtain ⟨h1, h2, h3, h4, h5, h6⟩ := h
    simp [po2entityAccess, h1, h2, h3, h4, h5, h6]
  · intro pf hpf
    simp [toEntityLine, hpf]

/-- Witness for the amended C2 theorem: the sql.NullFloat32 descriptor is
read directly. -/
theorem c2_witness : po2entityAccess c2price = c2price.FieldName :=
  (c2_po_to_entity_access c2price).2.2.2.2.2.2.1 (by decide)

/-- C3 counterexample: a column whose other clause is the single token
XNULL. The token is not NOT NULL, not DEFAULT NULL and not a standalone
NULL token, so the claimed policy makes the column non-nullable with
target type int32; the code resolves it as nullable, because its NULL
pattern requires a word boundary only on the right, and selects
sql.NullInt32 from the nullable table. -/
theorem c3_counterexample :
    ((findFieldMatches c3input.data).map (fun m => String.mk m.other)) = ["XNULL"]
      ∧ (parseOk ["Po", "Entity"] c3input).Fields.map (fun f => f.FieldType)
          = ["sql.NullInt32"]
      ∧ specNullabilityPolicy "XNULL".data = false
      ∧ goMapGet (NewSQLParser []).TypeMappings "INT" = "int32" := by
  refine ⟨by decide, by decide, by decide, by decide⟩

/-- C3 amended: nullability is decided as: a word-bounded case-insensitive
NOT NULL makes the column non-nullable; otherwise a case-insensitive
DEFAULT NULL substring, or a case-insensitive NULL bounded only on the
right (so any token ending in NULL counts), makes it nullable; absent
both it is non-nullable; the resolved nullability selects the nullable or
the non-nullable mapping table for the descriptor type. -/
theorem c3_nullability (p : SQLParser) (m : FieldMatch) :
    resolveNullable m.other = (!matchNotNullRe m.other && matchNullRe m.other)
      ∧ (mkField p m).FieldType =
          (if resolveNullable m.other then goMapGet p.NullableTypeMappings (sqlTypeOfMatch m)
           else goMapGet p.TypeMappings (sqlTypeOfMatch m)) := by
  constructor
  · unfold resolveNullable
    cases h : matchNotNullRe m.other <;> simp [h]
  · simp [mkField]

/-- C4: a type keyword with no entry in the mapping table selected by the
resolved nullability yields the empty string as the descriptor type, and
generation does not fail: it succeeds for every parser whose derived
field names are nonempty, the empty type being embedded in the rendered
text. -/
theorem c4_unmapped_type (p : SQLParser) (m : FieldMatch) (q : SQLParser) (dir : String)
    (h : ((if resolveNullable m.other then p.NullableTypeMappings else p.TypeMappings).find?
        (fun kv => kv.1 == sqlTypeOfMatch m)) = none)
    (hq : ∀ f ∈ q.Fields, f.FieldName ≠ "") :
    (mkField p m).FieldType = "" ∧ ∃ r, GenerateStruct q dir = some r := by
  constructor
  · cases hb : resolveNullable m.other with
    | false =>
      rw [hb] at h
      simp only [Bool.false_eq_true, if_false] at h
      simp [mkField, goMapGet, hb, h]
    | true =>
      rw [hb] at h
      simp only [if_true] at h
      simp [mkField, goMapGet, hb, h]
  · exact generateStruct_total dir hq

/-- Witness for C4: the ENUM column resolves to the empty type and the
parser populated from the ENUM input still generates. -/
theorem c4_witness :
    (mkField (NewSQLParser ["Po", "Entity"]) c4m).FieldType = ""
      ∧ ∃ r, GenerateStruct (parseOk ["Po", "Entity"] c4input) "out" = some r :=
  c4_unmapped_type (NewSQLParser ["Po", "Entity"]) c4m (parseOk ["Po", "Entity"] c4input)
    "out" (by decide) (by decide)

/-- C5: the validation tag of a matched column: a raw type token starting
with VARCHAR yields the max tag built from the first numeric run of the
type token; otherwise the encryption-marker keyword in the other clause
yields the omitempty tag; otherwise no tag. At most one tag is ever
attached and the VARCHAR tag takes precedence. -/
theorem c5_validation_tag (p : SQLParser) (m : FieldMatch) :
    (isPrefixB "VARCHAR".data m.rawType = true →
        (mkField p m).Validate
          = "validate:\"max=" ++ String.mk (findDigitsRun m.rawType) ++ "\"")
    ∧ (isPrefixB "VARCHAR".data m.rawType = false →
        listContains encKeyword m.other = true →
          (mkField p m).Validate = "validate:\"omitempty\"")
    ∧ (isPrefixB "VARCHAR".data m.rawType = false →
        listContains encKeyword m.other = false → (mkField p m).Validate = "") := by
  refine ⟨?_, ?_, ?_⟩
  · intro h; simp [mkField, h]
  · intro h1 h2; simp [mkField, h1, h2]
  · intro h1 h2; simp [mkField, h1, h2]

/-- Witness for C5: the VARCHAR(64) column carries the max tag. -/
theorem c5_witness :
    (mkField (NewSQLParser ["Po", "Entity"]) c5m).Validate
      = "validate:\"max=" ++ String.mk (findDigitsRun c5m.rawType) ++ "\"" :=
  (c5_validation_tag (NewSQLParser ["Po", "Entity"]) c5m).1 (by decide)

/-- C7 counterexample: a parser populated from a schema with a nullable
date-time column but no secondary struct name configured. At least one
field has the nullable date-time type, yet the rendered output does not
contain the time helper anywhere, refuting the claimed equivalence. -/
theorem c7_counterexample :
    needTimeFunc pNoSecond.Fields = true
      ∧ pNoSecond.SecondStructName = ""
      ∧ (contentOf pNoSecond).map (fun c => strEndsWith c timeHelperText) = some false
      ∧ (contentOf pNoSecond).map (fun c => listContains timeHelperText.data c.data)
          = some false := by
  refine ⟨by decide, by decide, by decide, by decide⟩

/-- C7 amended: the rendered output ends with the time-helper text exactly
when the secondary struct name is nonempty and at least one field has the
nullable date-time type; and the emitted helper, modelled from its
literal text, maps the zero time to a wrapper marked not present and any
other time to a wrapper marked present carrying that value. -/
theorem c7_time_helper (p : SQLParser) (c : String) (h : contentOf p = some c) :
    (strEndsWith c timeHelperText = true
        ↔ (p.SecondStructName ≠ "" ∧ needTimeFunc p.Fields = true))
      ∧ (∀ t : Int,
          (t = 0 → emittedTimeToNullDateTime t = { Time := 0, Valid := false })
            ∧ (t ≠ 0 → emittedTimeToNullDateTime t = { Time := t, Valid := true })) := by
  constructor
  · by_cases hs : p.SecondStructName = ""
    · have hc : c = poSection p := by
        unfold contentOf entityPart at h
        rw [if_pos hs] at h
        simp at h
        exact h.symm
      have hlast : c.data.getLast? = some (Char.ofNat 10) := by
        rw [hc]
        exact poSection_last p
      rw [strEndsWith_false_of_last_ne (Char.ofNat 10) (Char.ofNat 125) hlast
        (by decide) (by decide)]
      simp [hs]
    · unfold contentOf entityPart at h
      rw [if_neg hs] at h
      cases hcore : entityCore p with
      | none => rw [hcore] at h; simp at h
      | some core =>
        rw [hcore] at h
        simp at h
        cases hn : needTimeFunc p.Fields with
        | true =>
          have hc : c = (poSection p ++ core) ++ timeHelperText := by
            rw [← h, hn]
            simp [String.append_assoc]
          rw [hc, strEndsWith_append_self]
          simp [hs, hn]
        | false =>
          obtain ⟨x, hx⟩ := entityCore_shape hcore
          have hc : c = poSection p ++ (x ++ entityTailLit) := by
            rw [← h, hn, hx]
            simp
          have hlast : c.data.getLast? = some (Char.ofNat 10) := by
            rw [hc, String.data_append, String.data_append, ← List.append_assoc]
            rw [getLast?_append_right _ entityTailLit.data (by decide)]
            decide
          rw [strEndsWith_false_of_last_ne (Char.ofNat 10) (Char.ofNat 125) hlast
            (by decide) (by decide)]
          simp [hn]
  · intro t
    constructor
    · intro ht; simp [emittedTimeToNullDateTime, ht]
    · intro ht; simp [emittedTimeToNullDateTime, ht]

/-- Witness for the amended C7 theorem: the parser populated from wInput
has a secondary struct name and a nullable date-time column, and its
rendered output ends with the time helper. -/
theorem c7_witness : ∃ c, contentOf pW = some c ∧ strEndsWith c timeHelperText = true := by
  have hsome : (contentOf pW).isSome = true := by rfl
  obtain ⟨c, hc⟩ := Option.isSome_iff_exists.mp hsome
  refine ⟨c, hc, ?_⟩
  exact ((c7_time_helper pW c hc).1).mpr ⟨by decide, by decide⟩

/-- C8 counterexample: the input column named f gives a descriptor whose
derived PascalCase field name is empty after the F-strip, and with the
nonempty secondary struct name configured the rendering takes the first
character of that empty name, an out-of-range access: emission is not
total. -/
theorem c8_counterexample :
    (parseOk ["Po", "Entity"] c8input).SecondStructName = "Entity"
      ∧ (parseOk ["Po", "Entity"] c8input).Fields.map (fun f => f.FieldName) = [""]
      ∧ GenerateStruct (parseOk ["Po", "Entity"] c8input) "out" = none := by
  refine ⟨by decide, by decide, by rfl⟩

/-- C8 amended: rendering performs no out-of-range access exactly on the
field lists whose derived field names are all nonempty: for those,
GenerateStruct always returns a rendered document. Parse can produce an
empty derived name, so emission is not total over all parses. -/
theorem c8_generate_total (p : SQLParser) (dir : String)
    (h : ∀ f ∈ p.Fields, f.FieldName ≠ "") :
    ∃ r, GenerateStruct p dir = some r :=
  generateStruct_total dir h

/-- Witness for the amended C8 theorem: the parser populated from wInput
has nonempty derived names and generates. -/
theorem c8_witness : ∃ r, GenerateStruct pW "out" = some r :=
  c8_generate_total pW "out" (by decide)

/-- C9: GenerateStruct does not mutate the parser: the state returned
with the rendered document has the same table name, struct names, field
list and mapping tables as the state passed in. -/
theorem c9_emitter_frame (p : SQLParser) (dir : String)
    (r : (String × String) × SQLParser) (h : GenerateStruct p dir = some r) :
    r.2.TableName = p.TableName ∧ r.2.StructName = p.StructName
      ∧ r.2.SecondStructName = p.SecondStructName ∧ r.2.Fields = p.Fields
      ∧ r.2.TypeMappings = p.TypeMappings
      ∧ r.2.NullableTypeMappings = p.NullableTypeMappings := by
  have h2 : r.2 = p := generateStruct_state h
  rw [h2]
  exact ⟨rfl, rfl, rfl, rfl, rfl, rfl⟩

/-- Witness for C9: the parser populated by Parse from wInput generates,
and the returned state keeps its field list. -/
theorem c9_witness : ∃ r, GenerateStruct pW "out" = some r ∧ r.2.Fields = pW.Fields := by
  have hsome : (GenerateStruct pW "out").isSome = true := by rfl
  obtain ⟨r, hr⟩ := Option.isSome_iff_exists.mp hsome
  exact ⟨r, hr, (c9_emitter_frame pW "out" r hr).2.2.2.1⟩

/-- C10: Parse succeeds on every input from every starting state; when
the table pattern finds no match the table name is unchanged (empty on a
fresh parser), and when no column matches the field list is unchanged
(empty on a fresh parser). The reportable failures of the program are the
file-read error of LoadSQLFile and the file-write error of
GenerateStruct, both outside the parsing core. -/
theorem c10_parse_total (p : SQLParser) (s : String) :
    Parse p s = Except.ok (parseResult p s)
      ∧ ((findTableMatch s.data).isNone = true
          → (parseResult p s).TableName = p.TableName)
      ∧ (findFieldMatches s.data = [] → (parseResult p s).Fields = p.Fields) := by
  refine ⟨rfl, ?_, ?_⟩
  · intro h
    cases ht : findTableMatch s.data with
    | none => simp [parseResult, ht]
    | some w => rw [ht] at h; simp at h
  · intro h
    cases ht : findTableMatch s.data with
    | none => simp [parseResult, ht, h]
    | some w =>
      simp [parseResult, ht, h]
      split <;> rfl

/-- Witness for C10: on an input with no CREATE TABLE clause and no
column match, Parse succeeds with empty table name and empty field
list. -/
theorem c10_witness :
    Parse (NewSQLParser ["A", "B"]) "no sql here"
        = Except.ok (parseResult (NewSQLParser ["A", "B"]) "no sql here")
      ∧ (parseResult (NewSQLParser ["A", "B"]) "no sql here").TableName = ""
      ∧ (parseResult (NewSQLParser ["A", "B"]) "no sql here").Fields = [] := by
  have h := c10_parse_total (NewSQLParser ["A", "B"]) "no sql here"
  exact ⟨h.1, h.2.1 (by decide), h.2.2 (by decide)⟩

end Sql2Struct
